import Mathlib

/-!
Verification of the MAHE-EVENTS college event-booking core.

The repository ships the database schema (`src/unnamed/part_000`: tables
`users`, `events`, `pending_events`, `tickets`, with sequences and
before-insert triggers implementing the identifier allocator) and the admin
event form (`AdminEventForm.tsx`, with the zod `eventSchema` validation and
the `onSubmit` handler).  The booking-engine operations themselves
(purchase / cancel / redeem / submit / review) are not present as code; they
are modelled here from the specification, over the record shapes the schema
defines.  Machine integers of the schema (`INT`) are modelled as `Int`
where sign matters and `Nat` for identifiers.
-/

namespace MaheEvents

/-- `tickets.status ENUM('purchased','used','cancelled')` from the schema. -/
inductive TicketStatus
  | purchased
  | used
  | cancelled
deriving DecidableEq, Repr

/-- `pending_events.status ENUM('pending','approved','rejected')` from the schema. -/
inductive PendingStatus
  | pending
  | approved
  | rejected
deriving DecidableEq, Repr

/-- The error taxonomy of the spec (§7): kinds, not representations. -/
inductive OpError
  | validationError
  | notFound
  | invalidStateTransition
  | outOfInventory
  | conflictError
deriving DecidableEq, Repr

/-- The descriptive (non-inventory) fields shared by `events` and
`pending_events` in the schema: title, description, image_url, date,
time_start, time_end, location, category, price.  Dates and times are kept
as the strings the schema stores (`DATE`, `TIME`); `price DECIMAL(10,2)` is
modelled as an integer number of cents. -/
structure Descr where
  title : String
  description : String
  image_url : String
  date : String
  time_start : String
  time_end : String
  location : String
  category : String
  price : Int
deriving DecidableEq, Repr

/-- A row of the `events` table (timestamps omitted). -/
structure Event where
  id : Nat
  descr : Descr
  total_tickets : Int
  available_tickets : Int
  organizer_id : Nat
deriving DecidableEq, Repr

/-- A row of the `tickets` table. -/
structure Ticket where
  id : Nat
  event_id : Nat
  user_id : Nat
  ticket_code : String
  status : TicketStatus
  purchase_date : Nat
deriving DecidableEq, Repr

/-- A row of the `pending_events` table. -/
structure PendingEvent where
  id : Nat
  descr : Descr
  total_tickets : Int
  requester_id : Nat
  status : PendingStatus
  admin_notes : String
deriving DecidableEq, Repr

/-- The state of the core: the three tables it owns, the three sequences
(`events_seq`, `pending_events_seq`, `tickets_seq`, each `START WITH 1
INCREMENT BY 1` in the schema), and a logical clock standing for
`CURRENT_TIMESTAMP`. -/
structure SysState where
  events : List Event
  tickets : List Ticket
  pending : List PendingEvent
  eventSeq : Nat
  pendingSeq : Nat
  ticketSeq : Nat
  clock : Nat
deriving DecidableEq, Repr

/-- The empty initial state; the sequences start at 1 as in the schema. -/
def initState : SysState :=
  { events := [], tickets := [], pending := [],
    eventSeq := 1, pendingSeq := 1, ticketSeq := 1, clock := 0 }

/-! ### Ticket codes -/

/-- Fuel-bounded decimal rendering helper (structural recursion on the
fuel, so that concrete ticket codes evaluate inside the kernel). -/
def digitsStrAux : Nat → Nat → List Char
  | _, 0 => []
  | 0, _ + 1 => []
  | fuel + 1, n + 1 =>
      digitsStrAux fuel ((n + 1) / 10) ++ [Nat.digitChar ((n + 1) % 10)]

/-- Decimal digit characters of `n`, most significant first (empty for 0). -/
def digitsStr (n : Nat) : List Char :=
  digitsStrAux n n

/-- Modelled from the spec: the ticket code is "derived from the Identifier
Allocator value plus the event id, formatted to be human-presentable and
collision-free by construction" (§4.3 step 3).  The engine code that builds
it is not in the repository; we render it as `TKT-<event id>-<allocator>`. -/
def mkTicketCode (eventId allocVal : Nat) : String :=
  ⟨'T' :: 'K' :: 'T' :: '-' :: (digitsStr eventId ++ '-' :: digitsStr allocVal)⟩

/-! ### Row lookup and in-place update (SQL `SELECT ... WHERE id = ?`,
`UPDATE ... WHERE id = ?`) -/

/-- Update in place every row whose key equals `i` (at most one, given
distinct keys). -/
def updateById {α : Type} (k : α → Nat) (i : Nat) (f : α → α) (l : List α) :
    List α :=
  l.map (fun y => if k y == i then f y else y)

def findEvent (s : SysState) (eventId : Nat) : Option Event :=
  s.events.find? (fun e => e.id == eventId)

def findTicket (s : SysState) (ticketId : Nat) : Option Ticket :=
  s.tickets.find? (fun t => t.id == ticketId)

def findPending (s : SysState) (pendingId : Nat) : Option PendingEvent :=
  s.pending.find? (fun p => p.id == pendingId)

/-! ### Time-of-day parsing (for the `time_end` after `time_start` check) -/

/-- Minutes past midnight of a `HH:MM` or `HH:MM:SS` time string
(0 when the string is not of that shape). -/
def parseHM (t : String) : Nat :=
  match t.data with
  | h1 :: h2 :: ':' :: m1 :: m2 :: _ =>
      ((h1.toNat - 48) * 10 + (h2.toNat - 48)) * 60 +
        ((m1.toNat - 48) * 10 + (m2.toNat - 48))
  | _ => 0

/-! ### The operations of the core.

Each operation returns its typed outcome together with the state after the
operation; on an error outcome the state is returned unchanged (spec §7:
"the shared inventory state must remain consistent ... even when an error
aborts an operation partway through"). -/

/-- Modelled from the spec (§4.2 `submit`): basic shape checks — non-empty
title and location, non-negative price, positive ticket count, end time
after start time; no check that the date is in the future. -/
def validDescr (d : Descr) (total : Int) : Bool :=
  (d.title != "") && (d.location != "") && decide (0 ≤ d.price) &&
    decide (0 < total) && decide (parseHM d.time_start < parseHM d.time_end)

/-- Modelled from the spec (§4.2): `submit(requester_id, descriptive_fields,
total_tickets)` creates a PendingEvent in `pending` state, or fails with
`ValidationError`; the backend handler is not in the repository. -/
def submit (s : SysState) (requesterId : Nat) (d : Descr) (total : Int) :
    Except OpError PendingEvent × SysState :=
  if validDescr d total then
    let p : PendingEvent :=
      { id := s.pendingSeq, descr := d, total_tickets := total,
        requester_id := requesterId, status := .pending, admin_notes := "" }
    (.ok p,
      { s with pending := s.pending ++ [p], pendingSeq := s.pendingSeq + 1,
               clock := s.clock + 1 })
  else
    (.error .validationError, s)

/-- The reviewer's decision on a pending event. -/
inductive Decision
  | approve
  | reject
deriving DecidableEq, Repr

/-- Modelled from the spec (§4.2 `review`): `NotFound` for a missing id,
`InvalidStateTransition` off the `pending` state; on approve, atomically
set the status to `approved` and create the Event with
`total_tickets = available_tickets = PendingEvent.total_tickets` and
`organizer_id = reviewer_id`; on reject, set the status to `rejected` and
store the notes.  The backend handler is not in the repository. -/
def review (s : SysState) (pendingId : Nat) (dec : Decision)
    (reviewerId : Nat) (notes : String) : Except OpError Unit × SysState :=
  match findPending s pendingId with
  | none => (.error .notFound, s)
  | some p =>
    if p.status = .pending then
      match dec with
      | .approve =>
        let e : Event :=
          { id := s.eventSeq, descr := p.descr,
            total_tickets := p.total_tickets,
            available_tickets := p.total_tickets,
            organizer_id := reviewerId }
        (.ok (),
          { s with
            pending := updateById PendingEvent.id pendingId
              (fun p' => { p' with status := .approved, admin_notes := notes })
              s.pending,
            events := s.events ++ [e],
            eventSeq := s.eventSeq + 1, clock := s.clock + 1 })
      | .reject =>
        (.ok (),
          { s with
            pending := updateById PendingEvent.id pendingId
              (fun p' => { p' with status := .rejected, admin_notes := notes })
              s.pending,
            clock := s.clock + 1 })
    else
      (.error .invalidStateTransition, s)

/-- Modelled from the spec (§3, §6 `createEvent`): direct organizer creation
of an Event; the inventory pool starts full (`available_tickets =
total_tickets`, as in the schema's sample rows) and a negative ticket count
is rejected as a `ValidationError`.  The backend handler is not in the
repository. -/
def createEvent (s : SysState) (organizerId : Nat) (d : Descr) (total : Int) :
    Except OpError Event × SysState :=
  if 0 ≤ total then
    let e : Event :=
      { id := s.eventSeq, descr := d, total_tickets := total,
        available_tickets := total, organizer_id := organizerId }
    (.ok e,
      { s with events := s.events ++ [e], eventSeq := s.eventSeq + 1,
               clock := s.clock + 1 })
  else
    (.error .validationError, s)

/-- Modelled from the spec (§4.3 `purchase`): validate the event exists
(`NotFound` otherwise); test-and-decrement the inventory (`OutOfInventory`
with the state unchanged when no ticket is available); create the Ticket in
`purchased` state with a fresh code from the allocator.  The backend handler
is not in the repository. -/
def purchase (s : SysState) (eventId userId : Nat) :
    Except OpError Ticket × SysState :=
  match findEvent s eventId with
  | none => (.error .notFound, s)
  | some e =>
    if 0 < e.available_tickets then
      let t : Ticket :=
        { id := s.ticketSeq, event_id := eventId, user_id := userId,
          ticket_code := mkTicketCode eventId s.ticketSeq,
          status := .purchased, purchase_date := s.clock }
      (.ok t,
        { s with
          events := updateById Event.id eventId
            (fun e' => { e' with available_tickets := e'.available_tickets - 1 })
            s.events,
          tickets := s.tickets ++ [t],
          ticketSeq := s.ticketSeq + 1, clock := s.clock + 1 })
    else
      (.error .outOfInventory, s)

/-- Modelled from the spec (§4.3 `cancel`): `NotFound` for a missing ticket,
`InvalidStateTransition` when the ticket is not currently `purchased`;
otherwise atomically set the status to `cancelled` and return the inventory
unit to the owning event.  The backend handler is not in the repository. -/
def cancel (s : SysState) (ticketId actorId : Nat) :
    Except OpError Unit × SysState :=
  match findTicket s ticketId with
  | none => (.error .notFound, s)
  | some t =>
    if t.status = .purchased then
      (.ok (),
        { s with
          tickets := updateById Ticket.id ticketId
            (fun t' => { t' with status := .cancelled }) s.tickets,
          events := updateById Event.id t.event_id
            (fun e => { e with available_tickets := e.available_tickets + 1 })
            s.events,
          clock := s.clock + 1 })
    else
      (.error .invalidStateTransition, s)

/-- Modelled from the spec (§4.3 `redeem`): `NotFound` for a missing ticket,
`InvalidStateTransition` when not currently `purchased`; otherwise set the
status to `used`, with no inventory effect.  The backend handler is not in
the repository. -/
def redeem (s : SysState) (ticketId : Nat) : Except OpError Unit × SysState :=
  match findTicket s ticketId with
  | none => (.error .notFound, s)
  | some t =>
    if t.status = .purchased then
      (.ok (),
        { s with
          tickets := updateById Ticket.id ticketId
            (fun t' => { t' with status := .used }) s.tickets,
          clock := s.clock + 1 })
    else
      (.error .invalidStateTransition, s)

/-! ### Reachability -/

/-- One invocation of an operation of the core, with its arguments. -/
inductive Op
  | submit (requesterId : Nat) (d : Descr) (total : Int)
  | review (pendingId : Nat) (dec : Decision) (reviewerId : Nat) (notes : String)
  | createEvent (organizerId : Nat) (d : Descr) (total : Int)
  | purchase (eventId userId : Nat)
  | cancel (ticketId actorId : Nat)
  | redeem (ticketId : Nat)

/-- The state after running one operation (the outcome is discarded; on an
error outcome the state is unchanged by construction of the operations). -/
def applyOp (s : SysState) : Op → SysState
  | .submit r d total => (submit s r d total).2
  | .review pid dec r notes => (review s pid dec r notes).2
  | .createEvent o d total => (createEvent s o d total).2
  | .purchase eid uid => (purchase s eid uid).2
  | .cancel tid aid => (cancel s tid aid).2
  | .redeem tid => (redeem s tid).2

/-- States reachable from the initial state by the operations of the core
(the spec's §5 per-event serialization makes any concurrent execution
equivalent to such a sequential one). -/
inductive Reachable : SysState → Prop
  | init : Reachable initState
  | step (s : SysState) (op : Op) : Reachable s → Reachable (applyOp s op)

/-! ### Injectivity of ticket codes -/

theorem digitChar_inj : ∀ a < 10, ∀ b < 10,
    Nat.digitChar a = Nat.digitChar b → a = b := by decide

theorem digitChar_ne_dash : ∀ a < 10, Nat.digitChar a ≠ '-' := by decide

theorem map_digitChar_inj : ∀ (l₁ l₂ : List Nat), (∀ d ∈ l₁, d < 10) →
    (∀ d ∈ l₂, d < 10) → l₁.map Nat.digitChar = l₂.map Nat.digitChar →
    l₁ = l₂ := by
  intro l₁
  induction l₁ with
  | nil =>
    intro l₂ _ _ h
    cases l₂ with
    | nil => rfl
    | cons b t => simp at h
  | cons a t ih =>
    intro l₂ h₁ h₂ h
    cases l₂ with
    | nil => simp at h
    | cons b t' =>
      simp only [List.map_cons, List.cons.injEq] at h
      have ha : a < 10 := h₁ a (List.mem_cons_self a t)
      have hb : b < 10 := h₂ b (List.mem_cons_self b t')
      have hab : a = b := digitChar_inj a ha b hb h.1
      have ht : t = t' := ih t' (fun d hd => h₁ d (List.mem_cons_of_mem a hd))
        (fun d hd => h₂ d (List.mem_cons_of_mem b hd)) h.2
      rw [hab, ht]

theorem digitsStrAux_eq : ∀ (fuel n : Nat), n ≤ fuel →
    digitsStrAux fuel n = ((Nat.digits 10 n).map Nat.digitChar).reverse := by
  intro fuel
  induction fuel with
  | zero =>
    intro n hn
    have hz : n = 0 := Nat.le_zero.mp hn
    subst hz
    simp [digitsStrAux]
  | succ f ih =>
    intro n hn
    cases n with
    | zero => simp [digitsStrAux]
    | succ m =>
      have hdiv : (m + 1) / 10 ≤ f := by
        have hlt : (m + 1) / 10 < m + 1 :=
          Nat.div_lt_self (Nat.succ_pos m) (by norm_num)
        omega
      rw [show digitsStrAux (f + 1) (m + 1) =
          digitsStrAux f ((m + 1) / 10) ++ [Nat.digitChar ((m + 1) % 10)]
          from rfl]
      rw [ih _ hdiv]
      rw [Nat.digits_def' (by norm_num : (1 : Nat) < 10) (Nat.succ_pos m)]
      simp

theorem digitsStr_eq (n : Nat) :
    digitsStr n = ((Nat.digits 10 n).map Nat.digitChar).reverse :=
  digitsStrAux_eq n n le_rfl

theorem digitsStr_inj {a b : Nat} (h : digitsStr a = digitsStr b) : a = b := by
  rw [digitsStr_eq, digitsStr_eq] at h
  have h' := List.reverse_injective h
  have hd : Nat.digits 10 a = Nat.digits 10 b :=
    map_digitChar_inj _ _ (fun d hd => Nat.digits_lt_base (by norm_num) hd)
      (fun d hd => Nat.digits_lt_base (by norm_num) hd) h'
  have := congrArg (Nat.ofDigits 10) hd
  rwa [Nat.ofDigits_digits, Nat.ofDigits_digits] at this

theorem dash_not_mem_digitsStr (n : Nat) : '-' ∉ digitsStr n := by
  rw [digitsStr_eq]
  intro hmem
  rw [List.mem_reverse, List.mem_map] at hmem
  obtain ⟨d, hd, hdc⟩ := hmem
  exact digitChar_ne_dash d (Nat.digits_lt_base (by norm_num) hd) hdc

theorem append_dash_inj : ∀ (l₁ l₂ r₁ r₂ : List Char), '-' ∉ l₁ → '-' ∉ l₂ →
    l₁ ++ '-' :: r₁ = l₂ ++ '-' :: r₂ → l₁ = l₂ ∧ r₁ = r₂ := by
  intro l₁
  induction l₁ with
  | nil =>
    intro l₂ r₁ r₂ _ h₂ h
    cases l₂ with
    | nil => simpa using h
    | cons b t =>
      simp only [List.nil_append, List.cons_append, List.cons.injEq] at h
      exact absurd (h.1 ▸ List.mem_cons_self b t) h₂
  | cons a t ih =>
    intro l₂ r₁ r₂ h₁ h₂ h
    cases l₂ with
    | nil =>
      simp only [List.cons_append, List.nil_append, List.cons.injEq] at h
      exact absurd (h.1 ▸ List.mem_cons_self a t) h₁
    | cons b t' =>
      simp only [List.cons_append, List.cons.injEq] at h
      have := ih t' r₁ r₂ (fun hm => h₁ (List.mem_cons_of_mem a hm))
        (fun hm => h₂ (List.mem_cons_of_mem b hm)) h.2
      exact ⟨by rw [h.1, this.1], this.2⟩

/-! ### Generic lemmas about keyed row lists -/

theorem find_key {α : Type} (k : α → Nat) (i : Nat) (l : List α) (x : α)
    (h : l.find? (fun y => k y == i) = some x) : x ∈ l ∧ k x = i :=
  ⟨List.mem_of_find?_eq_some h, by
    have := List.find?_some h
    simpa using this⟩

theorem find_none {α : Type} (k : α → Nat) (i : Nat) (l : List α)
    (h : l.find? (fun y => k y == i) = none) : ∀ y ∈ l, k y ≠ i := by
  rw [List.find?_eq_none] at h
  intro y hy
  have := h y hy
  simpa using this

theorem exists_split {α : Type} (k : α → Nat) {l : List α} {x : α}
    (hx : x ∈ l) (hnd : (l.map k).Nodup) :
    ∃ l₁ l₂, l = l₁ ++ x :: l₂ ∧ (∀ y ∈ l₁, k y ≠ k x) ∧
      (∀ y ∈ l₂, k y ≠ k x) := by
  obtain ⟨l₁, l₂, rfl⟩ := List.append_of_mem hx
  refine ⟨l₁, l₂, rfl, ?_, ?_⟩
  · intro y hy hk
    rw [List.map_append, List.map_cons, List.nodup_append] at hnd
    exact hnd.2.2 (hk ▸ List.mem_map_of_mem k hy) (List.mem_cons_self _ _)
  · intro y hy hk
    rw [List.map_append, List.map_cons, List.nodup_append, List.nodup_cons]
      at hnd
    exact hnd.2.1.1 (hk ▸ List.mem_map_of_mem k hy)

theorem updateById_split {α : Type} (k : α → Nat) (f : α → α)
    {l₁ l₂ : List α} {x : α} (h₁ : ∀ y ∈ l₁, k y ≠ k x)
    (h₂ : ∀ y ∈ l₂, k y ≠ k x) :
    updateById k (k x) f (l₁ ++ x :: l₂) = l₁ ++ f x :: l₂ := by
  unfold updateById
  rw [List.map_append, List.map_cons]
  have e₁ : l₁.map (fun y => if k y == k x then f y else y) = l₁.map id :=
    List.map_congr_left (fun y hy => by
      simp [beq_eq_false_iff_ne.mpr (h₁ y hy)])
  have e₂ : l₂.map (fun y => if k y == k x then f y else y) = l₂.map id :=
    List.map_congr_left (fun y hy => by
      simp [beq_eq_false_iff_ne.mpr (h₂ y hy)])
  rw [e₁, e₂, List.map_id, List.map_id]
  simp

theorem updateById_map_key {α : Type} (k : α → Nat) (i : Nat) (f : α → α)
    (l : List α) (hf : ∀ y, k (f y) = k y) :
    (updateById k i f l).map k = l.map k := by
  unfold updateById
  rw [List.map_map]
  exact List.map_congr_left (fun y _ => by
    by_cases h : k y = i <;> simp [h, hf])

theorem mem_updateById {α : Type} {k : α → Nat} {i : Nat} {f : α → α}
    {l : List α} {y : α} (hy : y ∈ updateById k i f l) :
    ∃ z ∈ l, y = if k z == i then f z else z := by
  unfold updateById at hy
  rw [List.mem_map] at hy
  obtain ⟨z, hz, hzy⟩ := hy
  exact ⟨z, hz, hzy.symm⟩

theorem mem_updateById_of_ne {α : Type} {k : α → Nat} (i : Nat) (f : α → α)
    {l : List α} {y : α} (hy : y ∈ l) (hne : k y ≠ i) :
    y ∈ updateById k i f l := by
  unfold updateById
  rw [List.mem_map]
  exact ⟨y, hy, by simp [beq_eq_false_iff_ne.mpr hne]⟩

theorem find?_split {α : Type} (p : α → Bool) (l₁ l₂ : List α) (x : α)
    (h₁ : ∀ y ∈ l₁, p y = false) (hx : p x = true) :
    (l₁ ++ x :: l₂).find? p = some x := by
  induction l₁ with
  | nil => simp [List.find?, hx]
  | cons a t ih =>
    have ha : p a = false := h₁ a (List.mem_cons_self a t)
    simp only [List.cons_append, List.find?, ha]
    exact ih (fun y hy => h₁ y (List.mem_cons_of_mem a hy))

/-! ### The reachability invariant -/

/-- Number of tickets of event `eid` currently in `purchased` state. -/
def purchasedCount (ts : List Ticket) (eid : Nat) : Nat :=
  (ts.filter
    (fun t => t.event_id == eid && t.status == TicketStatus.purchased)).length

theorem purchasedCount_append (ts₁ ts₂ : List Ticket) (eid : Nat) :
    purchasedCount (ts₁ ++ ts₂) eid =
      purchasedCount ts₁ eid + purchasedCount ts₂ eid := by
  unfold purchasedCount
  rw [List.filter_append, List.length_append]

theorem purchasedCount_cons (t : Ticket) (ts : List Ticket) (eid : Nat) :
    purchasedCount (t :: ts) eid =
      (if t.event_id = eid ∧ t.status = TicketStatus.purchased then 1 else 0)
        + purchasedCount ts eid := by
  unfold purchasedCount
  by_cases h : t.event_id = eid ∧ t.status = TicketStatus.purchased
  · rw [List.filter_cons_of_pos (by simp [h.1, h.2]), if_pos h]
    simp [Nat.add_comm]
  · rw [List.filter_cons_of_neg, if_neg h]
    · simp
    · simp only [Bool.and_eq_true, beq_iff_eq]
      exact fun hc => h hc

theorem purchasedCount_eq_zero (ts : List Ticket) (eid : Nat)
    (h : ∀ t ∈ ts, t.event_id ≠ eid) : purchasedCount ts eid = 0 := by
  unfold purchasedCount
  rw [List.length_eq_zero, List.filter_eq_nil]
  intro t ht
  simp [h t ht]

/-- The inductive invariant of the core's state: identifier bounds and
distinctness per table, ticket codes as generated, referential integrity of
tickets into events, positivity of requested ticket counts, and the
inventory accounting `available_tickets + #purchased ≤ total_tickets`. -/
def Inv (s : SysState) : Prop :=
  (∀ e ∈ s.events, e.id < s.eventSeq) ∧
  (s.events.map Event.id).Nodup ∧
  (∀ t ∈ s.tickets, t.id < s.ticketSeq) ∧
  (s.tickets.map Ticket.id).Nodup ∧
  (∀ t ∈ s.tickets, t.ticket_code = mkTicketCode t.event_id t.id) ∧
  (∀ t ∈ s.tickets, ∃ e ∈ s.events, e.id = t.event_id) ∧
  (∀ p ∈ s.pending, p.id < s.pendingSeq) ∧
  (s.pending.map PendingEvent.id).Nodup ∧
  (∀ p ∈ s.pending, 0 < p.total_tickets) ∧
  (∀ e ∈ s.events, 0 ≤ e.available_tickets ∧
    e.available_tickets + (purchasedCount s.tickets e.id : Int)
      ≤ e.total_tickets)

instance (s : SysState) : Decidable (Inv s) := by
  unfold Inv
  infer_instance

theorem freshAppend_bound {α : Type} (k : α → Nat) {l : List α} {x : α}
    {n : Nat} (hb : ∀ y ∈ l, k y < n) (hx : k x = n) :
    ∀ y ∈ l ++ [x], k y < n + 1 := by
  intro y hy
  rcases List.mem_append.mp hy with h | h
  · exact Nat.lt_succ_of_lt (hb y h)
  · rw [List.mem_singleton] at h
    subst h
    rw [hx]
    exact Nat.lt_succ_self n

theorem freshAppend_nodup {α : Type} (k : α → Nat) {l : List α} {x : α}
    {n : Nat} (hb : ∀ y ∈ l, k y < n) (hx : k x = n)
    (hnd : (l.map k).Nodup) : ((l ++ [x]).map k).Nodup := by
  rw [List.map_append, List.nodup_append]
  refine ⟨hnd, by simp, ?_⟩
  intro a ha hax
  rw [List.mem_map] at ha
  obtain ⟨y, hy, rfl⟩ := ha
  rw [List.map_singleton, List.mem_singleton] at hax
  have := hb y hy
  rw [hax, hx] at this
  exact absurd this (lt_irrefl n)

theorem updateById_mem_image {α : Type} (k : α → Nat) (i : Nat) (f : α → α)
    {l : List α} {z : α} (hz : z ∈ l) :
    (if k z == i then f z else z) ∈ updateById k i f l :=
  List.mem_map_of_mem _ hz

theorem Inv_initState : Inv initState := by
  refine ⟨?_, ?_, ?_, ?_, ?_, ?_, ?_, ?_, ?_, ?_⟩ <;> simp [initState, Inv]

theorem Inv_submit (s : SysState) (r : Nat) (d : Descr) (total : Int)
    (h : Inv s) : Inv (submit s r d total).2 := by
  obtain ⟨h1, h2, h3, h4, h5, h6, h7, h8, h9, h10⟩ := h
  unfold submit
  by_cases hv : validDescr d total = true
  · rw [if_pos hv]
    have htot : 0 < total := by
      unfold validDescr at hv
      simp only [Bool.and_eq_true, decide_eq_true_eq] at hv
      exact hv.1.2
    refine ⟨h1, h2, h3, h4, h5, h6, ?_, ?_, ?_, h10⟩
    · exact freshAppend_bound PendingEvent.id h7 rfl
    · exact freshAppend_nodup PendingEvent.id h7 rfl h8
    · intro p hp
      rcases List.mem_append.mp hp with hmem | hmem
      · exact h9 p hmem
      · rw [List.mem_singleton] at hmem
        subst hmem
        exact htot
  · rw [if_neg hv]
    exact ⟨h1, h2, h3, h4, h5, h6, h7, h8, h9, h10⟩

theorem Inv_createEvent (s : SysState) (o : Nat) (d : Descr) (total : Int)
    (h : Inv s) : Inv (createEvent s o d total).2 := by
  obtain ⟨h1, h2, h3, h4, h5, h6, h7, h8, h9, h10⟩ := h
  unfold createEvent
  by_cases hv : 0 ≤ total
  · rw [if_pos hv]
    refine ⟨?_, ?_, h3, h4, h5, ?_, h7, h8, h9, ?_⟩
    · exact freshAppend_bound Event.id h1 rfl
    · exact freshAppend_nodup Event.id h1 rfl h2
    · intro t ht
      obtain ⟨e, he, heid⟩ := h6 t ht
      exact ⟨e, List.mem_append_left _ he, heid⟩
    · intro e he
      rcases List.mem_append.mp he with hmem | hmem
      · exact h10 e hmem
      · rw [List.mem_singleton] at hmem
        subst hmem
        have hz : purchasedCount s.tickets s.eventSeq = 0 := by
          apply purchasedCount_eq_zero
          intro t ht
          obtain ⟨e', he', heid⟩ := h6 t ht
          have := h1 e' he'
          omega
        constructor
        · exact hv
        · rw [hz]
          simp
  · rw [if_neg hv]
    exact ⟨h1, h2, h3, h4, h5, h6, h7, h8, h9, h10⟩

theorem Inv_review (s : SysState) (pid : Nat) (dec : Decision) (r : Nat)
    (notes : String) (h : Inv s) : Inv (review s pid dec r notes).2 := by
  obtain ⟨h1, h2, h3, h4, h5, h6, h7, h8, h9, h10⟩ := h
  unfold review
  cases hfind : findPending s pid with
  | none => exact ⟨h1, h2, h3, h4, h5, h6, h7, h8, h9, h10⟩
  | some p =>
    have hfind' : s.pending.find? (fun q => q.id == pid) = some p := hfind
    obtain ⟨hp_mem, hp_id⟩ := find_key PendingEvent.id pid s.pending p hfind'
    dsimp only
    by_cases hst : p.status = PendingStatus.pending
    · rw [if_pos hst]
      cases dec with
      | approve =>
        dsimp only
        refine ⟨?_, ?_, h3, h4, h5, ?_, ?_, ?_, ?_, ?_⟩
        · exact freshAppend_bound Event.id h1 rfl
        · exact freshAppend_nodup Event.id h1 rfl h2
        · intro t ht
          obtain ⟨e', he', heid⟩ := h6 t ht
          exact ⟨e', List.mem_append_left _ he', heid⟩
        · intro q hq
          obtain ⟨z, hz, hq_eq⟩ := mem_updateById hq
          subst hq_eq
          split <;> exact h7 z hz
        · rw [updateById_map_key PendingEvent.id pid
            (fun p' => { p' with status := PendingStatus.approved,
                                 admin_notes := notes }) s.pending
            (fun y => rfl)]
          exact h8
        · intro q hq
          obtain ⟨z, hz, hq_eq⟩ := mem_updateById hq
          subst hq_eq
          split <;> exact h9 z hz
        · intro e he
          rcases List.mem_append.mp he with hmem | hmem
          · exact h10 e hmem
          · rw [List.mem_singleton] at hmem
            subst hmem
            have hz : purchasedCount s.tickets s.eventSeq = 0 := by
              apply purchasedCount_eq_zero
              intro t ht
              obtain ⟨e', he', heid⟩ := h6 t ht
              have := h1 e' he'
              omega
            have hpt : 0 < p.total_tickets := h9 p hp_mem
            constructor
            · exact le_of_lt hpt
            · rw [hz]
              simp
      | reject =>
        dsimp only
        refine ⟨h1, h2, h3, h4, h5, h6, ?_, ?_, ?_, h10⟩
        · intro q hq
          obtain ⟨z, hz, hq_eq⟩ := mem_updateById hq
          subst hq_eq
          split <;> exact h7 z hz
        · rw [updateById_map_key PendingEvent.id pid
            (fun p' => { p' with status := PendingStatus.rejected,
                                 admin_notes := notes }) s.pending
            (fun y => rfl)]
          exact h8
        · intro q hq
          obtain ⟨z, hz, hq_eq⟩ := mem_updateById hq
          subst hq_eq
          split <;> exact h9 z hz
    · rw [if_neg hst]
      exact ⟨h1, h2, h3, h4, h5, h6, h7, h8, h9, h10⟩

theorem updateById_exists_same_key {α : Type} (k : α → Nat) (i : Nat)
    (f : α → α) (hf : ∀ y, k (f y) = k y) {l : List α} {z : α} (hz : z ∈ l) :
    ∃ w ∈ updateById k i f l, k w = k z := by
  refine ⟨if k z == i then f z else z, updateById_mem_image k i f hz, ?_⟩
  split
  · exact hf z
  · rfl

theorem purchasedCount_singleton (t : Ticket) (eid : Nat) :
    purchasedCount [t] eid =
      if t.event_id = eid ∧ t.status = TicketStatus.purchased then 1
      else 0 := by
  rw [show [t] = t :: ([] : List Ticket) from rfl, purchasedCount_cons]
  simp [purchasedCount]

theorem Inv_purchase (s : SysState) (eid uid : Nat) (h : Inv s) :
    Inv (purchase s eid uid).2 := by
  obtain ⟨h1, h2, h3, h4, h5, h6, h7, h8, h9, h10⟩ := h
  unfold purchase
  cases hfind : findEvent s eid with
  | none => exact ⟨h1, h2, h3, h4, h5, h6, h7, h8, h9, h10⟩
  | some e =>
    have hfind' : s.events.find? (fun x => x.id == eid) = some e := hfind
    obtain ⟨he_mem, he_id⟩ := find_key Event.id eid s.events e hfind'
    subst he_id
    dsimp only
    by_cases havail : 0 < e.available_tickets
    · rw [if_pos havail]
      obtain ⟨l₁, l₂, hsplit, hl₁, hl₂⟩ := exists_split Event.id he_mem h2
      have hupd : updateById Event.id e.id
          (fun e' => { e' with available_tickets := e'.available_tickets - 1 })
          s.events =
          l₁ ++ { e with available_tickets := e.available_tickets - 1 } :: l₂
          := by
        rw [hsplit]
        exact updateById_split Event.id _ hl₁ hl₂
      refine ⟨?_, ?_, ?_, ?_, ?_, ?_, h7, h8, h9, ?_⟩
      · intro e' he'
        obtain ⟨z, hz, he_eq⟩ := mem_updateById he'
        subst he_eq
        split <;> exact h1 z hz
      · rw [updateById_map_key Event.id e.id
          (fun e' => { e' with available_tickets := e'.available_tickets - 1 })
          s.events (fun y => rfl)]
        exact h2
      · exact freshAppend_bound Ticket.id h3 rfl
      · exact freshAppend_nodup Ticket.id h3 rfl h4
      · intro t ht
        rcases List.mem_append.mp ht with hm | hm
        · exact h5 t hm
        · rw [List.mem_singleton] at hm
          subst hm
          rfl
      · intro t ht
        rcases List.mem_append.mp ht with hm | hm
        · obtain ⟨e₀, he₀, heid⟩ := h6 t hm
          obtain ⟨w, hw, hwk⟩ := updateById_exists_same_key Event.id e.id
            (fun e' => { e' with
              available_tickets := e'.available_tickets - 1 })
            (fun y => rfl) he₀
          exact ⟨w, hw, by rw [hwk, heid]⟩
        · rw [List.mem_singleton] at hm
          subst hm
          obtain ⟨w, hw, hwk⟩ := updateById_exists_same_key Event.id e.id
            (fun e' => { e' with
              available_tickets := e'.available_tickets - 1 })
            (fun y => rfl) he_mem
          exact ⟨w, hw, hwk⟩
      · intro x hx
        rw [hupd] at hx
        have hcount_other : ∀ i : Nat, i ≠ e.id →
            purchasedCount (s.tickets ++
              [{ id := s.ticketSeq, event_id := e.id, user_id := uid,
                 ticket_code := mkTicketCode e.id s.ticketSeq,
                 status := TicketStatus.purchased,
                 purchase_date := s.clock }]) i =
              purchasedCount s.tickets i := by
          intro i hi
          rw [purchasedCount_append, purchasedCount_singleton, if_neg]
          · simp
          · intro hc
            exact hi (hc.1.symm)
        rcases List.mem_append.mp hx with hm | hm
        · have hxold : x ∈ s.events := by
            rw [hsplit]
            exact List.mem_append_left _ hm
          have hxid : x.id ≠ e.id := hl₁ x hm
          rw [hcount_other x.id hxid]
          exact h10 x hxold
        · rcases List.mem_cons.mp hm with rfl | hm
          · have hold := h10 e he_mem
            have hnew : purchasedCount (s.tickets ++
                [{ id := s.ticketSeq, event_id := e.id, user_id := uid,
                   ticket_code := mkTicketCode e.id s.ticketSeq,
                   status := TicketStatus.purchased,
                   purchase_date := s.clock }]) e.id =
                purchasedCount s.tickets e.id + 1 := by
              rw [purchasedCount_append, purchasedCount_singleton,
                if_pos ⟨rfl, rfl⟩]
            dsimp only at hnew ⊢
            rw [hnew]
            push_cast
            constructor
            · omega
            · have := hold.2
              omega
          · have hxold : x ∈ s.events := by
              rw [hsplit]
              exact List.mem_append_right _ (List.mem_cons_of_mem _ hm)
            have hxid : x.id ≠ e.id := hl₂ x hm
            rw [hcount_other x.id hxid]
            exact h10 x hxold
    · rw [if_neg havail]
      exact ⟨h1, h2, h3, h4, h5, h6, h7, h8, h9, h10⟩

theorem purchasedCount_split (t₁ t₂ : List Ticket) (a : Ticket) (eid : Nat) :
    purchasedCount (t₁ ++ a :: t₂) eid =
      purchasedCount t₁ eid +
        (if a.event_id = eid ∧ a.status = TicketStatus.purchased then 1
         else 0) + purchasedCount t₂ eid := by
  rw [purchasedCount_append, purchasedCount_cons]
  omega

theorem Inv_cancel (s : SysState) (tid aid : Nat) (h : Inv s) :
    Inv (cancel s tid aid).2 := by
  obtain ⟨h1, h2, h3, h4, h5, h6, h7, h8, h9, h10⟩ := h
  unfold cancel
  cases hfind : findTicket s tid with
  | none => exact ⟨h1, h2, h3, h4, h5, h6, h7, h8, h9, h10⟩
  | some t =>
    have hfind' : s.tickets.find? (fun x => x.id == tid) = some t := hfind
    obtain ⟨ht_mem, ht_id⟩ := find_key Ticket.id tid s.tickets t hfind'
    subst ht_id
    dsimp only
    by_cases hst : t.status = TicketStatus.purchased
    · rw [if_pos hst]
      obtain ⟨t₁, t₂, htsplit, ht₁, ht₂⟩ := exists_split Ticket.id ht_mem h4
      have htupd : updateById Ticket.id t.id
          (fun t' => { t' with status := TicketStatus.cancelled }) s.tickets =
          t₁ ++ { t with status := TicketStatus.cancelled } :: t₂ := by
        rw [htsplit]
        exact updateById_split Ticket.id _ ht₁ ht₂
      obtain ⟨e₀, he₀_mem, he₀_id⟩ := h6 t ht_mem
      obtain ⟨l₁, l₂, hesplit, hl₁, hl₂⟩ := exists_split Event.id he₀_mem h2
      have heupd : updateById Event.id t.event_id
          (fun e => { e with available_tickets := e.available_tickets + 1 })
          s.events =
          l₁ ++ { e₀ with available_tickets := e₀.available_tickets + 1 } :: l₂
          := by
        rw [hesplit, ← he₀_id]
        exact updateById_split Event.id _ hl₁ hl₂
      refine ⟨?_, ?_, ?_, ?_, ?_, ?_, h7, h8, h9, ?_⟩
      · intro e' he'
        obtain ⟨z, hz, he_eq⟩ := mem_updateById he'
        subst he_eq
        split <;> exact h1 z hz
      · rw [updateById_map_key Event.id t.event_id
          (fun e => { e with available_tickets := e.available_tickets + 1 })
          s.events (fun y => rfl)]
        exact h2
      · intro t' ht'
        obtain ⟨z, hz, ht_eq⟩ := mem_updateById ht'
        subst ht_eq
        split <;> exact h3 z hz
      · rw [updateById_map_key Ticket.id t.id
          (fun t' => { t' with status := TicketStatus.cancelled })
          s.tickets (fun y => rfl)]
        exact h4
      · intro t' ht'
        obtain ⟨z, hz, ht_eq⟩ := mem_updateById ht'
        subst ht_eq
        split <;> exact h5 z hz
      · intro t' ht'
        obtain ⟨z, hz, ht_eq⟩ := mem_updateById ht'
        obtain ⟨e', he', heid⟩ := h6 z hz
        obtain ⟨w, hw, hwk⟩ := updateById_exists_same_key Event.id t.event_id
          (fun e => { e with available_tickets := e.available_tickets + 1 })
          (fun y => rfl) he'
        refine ⟨w, hw, ?_⟩
        subst ht_eq
        rw [hwk, heid]
        split <;> rfl
      · intro x hx
        rw [heupd] at hx
        rw [htupd]
        have hmid : ∀ i : Nat, i ≠ t.event_id →
            purchasedCount
              (t₁ ++ { t with status := TicketStatus.cancelled } :: t₂) i =
              purchasedCount (t₁ ++ t :: t₂) i := by
          intro i hi
          rw [purchasedCount_split, purchasedCount_split, if_neg, if_neg]
          · intro hc
            exact hi (hc.1 ▸ rfl)
          · intro hc
            exact hi (hc.1 ▸ rfl)
        rcases List.mem_append.mp hx with hm | hm
        · have hxold : x ∈ s.events := by
            rw [hesplit]
            exact List.mem_append_left _ hm
          have hxid : x.id ≠ t.event_id := by
            rw [← he₀_id]
            exact hl₁ x hm
          rw [hmid x.id hxid]
          rw [htsplit] at h10
          exact h10 x hxold
        · rcases List.mem_cons.mp hm with rfl | hm
          · have hold := h10 e₀ he₀_mem
            rw [htsplit] at hold
            have hnew : purchasedCount
                (t₁ ++ { t with status := TicketStatus.cancelled } :: t₂)
                e₀.id + 1 =
                purchasedCount (t₁ ++ t :: t₂) e₀.id := by
              rw [purchasedCount_split, purchasedCount_split,
                if_neg (fun hc => by cases hc.2), if_pos ⟨he₀_id.symm, hst⟩]
              omega
            dsimp only at hold ⊢
            constructor
            · have := hold.1
              omega
            · have h2' := hold.2
              omega
          · have hxold : x ∈ s.events := by
              rw [hesplit]
              exact List.mem_append_right _ (List.mem_cons_of_mem _ hm)
            have hxid : x.id ≠ t.event_id := by
              rw [← he₀_id]
              exact hl₂ x hm
            rw [hmid x.id hxid]
            rw [htsplit] at h10
            exact h10 x hxold
    · rw [if_neg hst]
      exact ⟨h1, h2, h3, h4, h5, h6, h7, h8, h9, h10⟩

theorem Inv_redeem (s : SysState) (tid : Nat) (h : Inv s) :
    Inv (redeem s tid).2 := by
  obtain ⟨h1, h2, h3, h4, h5, h6, h7, h8, h9, h10⟩ := h
  unfold redeem
  cases hfind : findTicket s tid with
  | none => exact ⟨h1, h2, h3, h4, h5, h6, h7, h8, h9, h10⟩
  | some t =>
    have hfind' : s.tickets.find? (fun x => x.id == tid) = some t := hfind
    obtain ⟨ht_mem, ht_id⟩ := find_key Ticket.id tid s.tickets t hfind'
    subst ht_id
    dsimp only
    by_cases hst : t.status = TicketStatus.purchased
    · rw [if_pos hst]
      obtain ⟨t₁, t₂, htsplit, ht₁, ht₂⟩ := exists_split Ticket.id ht_mem h4
      have htupd : updateById Ticket.id t.id
          (fun t' => { t' with status := TicketStatus.used }) s.tickets =
          t₁ ++ { t with status := TicketStatus.used } :: t₂ := by
        rw [htsplit]
        exact updateById_split Ticket.id _ ht₁ ht₂
      refine ⟨h1, h2, ?_, ?_, ?_, ?_, h7, h8, h9, ?_⟩
      · intro t' ht'
        obtain ⟨z, hz, ht_eq⟩ := mem_updateById ht'
        subst ht_eq
        split <;> exact h3 z hz
      · rw [updateById_map_key Ticket.id t.id
          (fun t' => { t' with status := TicketStatus.used })
          s.tickets (fun y => rfl)]
        exact h4
      · intro t' ht'
        obtain ⟨z, hz, ht_eq⟩ := mem_updateById ht'
        subst ht_eq
        split <;> exact h5 z hz
      · intro t' ht'
        obtain ⟨z, hz, ht_eq⟩ := mem_updateById ht'
        obtain ⟨e', he', heid⟩ := h6 z hz
        refine ⟨e', he', ?_⟩
        subst ht_eq
        rw [heid]
        split <;> rfl
      · intro x hx
        dsimp only
        have hold := h10 x hx
        rw [htsplit] at hold
        rw [htupd]
        have hle : purchasedCount
            (t₁ ++ { t with status := TicketStatus.used } :: t₂) x.id ≤
            purchasedCount (t₁ ++ t :: t₂) x.id := by
          rw [purchasedCount_split, purchasedCount_split,
            if_neg (fun hc => by cases hc.2)]
          split <;> omega
        constructor
        · exact hold.1
        · have h2' := hold.2
          omega
    · rw [if_neg hst]
      exact ⟨h1, h2, h3, h4, h5, h6, h7, h8, h9, h10⟩

theorem mkTicketCode_inj {e₁ a₁ e₂ a₂ : Nat}
    (h : mkTicketCode e₁ a₁ = mkTicketCode e₂ a₂) : e₁ = e₂ ∧ a₁ = a₂ := by
  unfold mkTicketCode at h
  have hl : 'T' :: 'K' :: 'T' :: '-' :: (digitsStr e₁ ++ '-' :: digitsStr a₁)
      = 'T' :: 'K' :: 'T' :: '-' :: (digitsStr e₂ ++ '-' :: digitsStr a₂) :=
    congrArg String.data h
  simp only [List.cons.injEq, true_and] at hl
  have := append_dash_inj _ _ _ _ (dash_not_mem_digitsStr e₁)
    (dash_not_mem_digitsStr e₂) hl
  exact ⟨digitsStr_inj this.1, digitsStr_inj this.2⟩

theorem Inv_applyOp (s : SysState) (op : Op) (h : Inv s) :
    Inv (applyOp s op) := by
  cases op with
  | submit r d total => exact Inv_submit s r d total h
  | review pid dec r notes => exact Inv_review s pid dec r notes h
  | createEvent o d total => exact Inv_createEvent s o d total h
  | purchase eid uid => exact Inv_purchase s eid uid h
  | cancel tid aid => exact Inv_cancel s tid aid h
  | redeem tid => exact Inv_redeem s tid h

theorem reachable_Inv {s : SysState} (h : Reachable s) : Inv s := by
  induction h with
  | init => exact Inv_initState
  | step s op _ ih => exact Inv_applyOp s op ih

theorem Inv_bounds (s : SysState) (hs : Inv s) : ∀ e ∈ s.events,
    0 ≤ e.available_tickets ∧ e.available_tickets ≤ e.total_tickets := by
  intro e he
  obtain ⟨-, -, -, -, -, -, -, -, -, h10⟩ := hs
  have h := h10 e he
  have hc : (0 : Int) ≤ (purchasedCount s.tickets e.id : Int) :=
    Int.natCast_nonneg _
  exact ⟨h.1, by omega⟩

/-- A concrete descriptor (mirroring the schema's sample data), used to
instantiate theorems at concrete states. -/
def sampleDescr : Descr :=
  { title := "Tech Innovation Summit",
    description := "Showcase of student tech projects and innovations",
    image_url := "", date := "2024-08-05", time_start := "09:00",
    time_end := "17:00", location := "Engineering Building",
    category := "academic", price := 0 }

/-- C1: in every reachable state, every Event satisfies
`0 ≤ available_tickets ≤ total_tickets`, and every operation of the core
(purchase, cancel, redeem, review, submit, event creation) preserves this
bound when run in any reachable state. -/
theorem C1_inventory_bounds :
    (∀ s, Reachable s → ∀ e ∈ s.events,
      0 ≤ e.available_tickets ∧ e.available_tickets ≤ e.total_tickets) ∧
    (∀ s op, Reachable s → ∀ e ∈ (applyOp s op).events,
      0 ≤ e.available_tickets ∧ e.available_tickets ≤ e.total_tickets) := by
  constructor
  · intro s hr
    exact Inv_bounds s (reachable_Inv hr)
  · intro s op hr
    exact Inv_bounds _ (reachable_Inv (Reachable.step s op hr))

theorem C1_inventory_bounds_witness :
    0 ≤ (Event.mk 1 sampleDescr 2 2 1).available_tickets ∧
    (Event.mk 1 sampleDescr 2 2 1).available_tickets ≤
      (Event.mk 1 sampleDescr 2 2 1).total_tickets :=
  C1_inventory_bounds.1 (applyOp initState (Op.createEvent 1 sampleDescr 2))
    (Reachable.step initState (Op.createEvent 1 sampleDescr 2) Reachable.init)
    (Event.mk 1 sampleDescr 2 2 1) (by decide)

/-- What the purchase step must compute when the event is found
(spec §4.3). -/
theorem purchase_ok (s : SysState) (eid uid : Nat) (e : Event)
    (he : findEvent s eid = some e) (hav : 0 < e.available_tickets) :
    purchase s eid uid =
      (Except.ok
        { id := s.ticketSeq, event_id := eid, user_id := uid,
          ticket_code := mkTicketCode eid s.ticketSeq,
          status := TicketStatus.purchased, purchase_date := s.clock },
       { s with
         events := updateById Event.id eid
           (fun e' => { e' with
             available_tickets := e'.available_tickets - 1 }) s.events,
         tickets := s.tickets ++
           [{ id := s.ticketSeq, event_id := eid, user_id := uid,
              ticket_code := mkTicketCode eid s.ticketSeq,
              status := TicketStatus.purchased, purchase_date := s.clock }],
         ticketSeq := s.ticketSeq + 1, clock := s.clock + 1 }) := by
  unfold purchase
  rw [he]
  dsimp only
  rw [if_pos hav]

/-- The behaviour claimed for `purchase` on an existing event: with
inventory left, it decrements `available_tickets` of exactly that event by
1 and creates exactly one new `purchased` Ticket referencing that event and
user; with no inventory it fails with `OutOfInventory` and leaves the whole
state unchanged. -/
def PurchaseSpec (s : SysState) (eid uid : Nat) (e : Event) : Prop :=
  (0 < e.available_tickets →
    ∃ t : Ticket,
      (purchase s eid uid).1 = Except.ok t ∧
      t.status = TicketStatus.purchased ∧ t.event_id = eid ∧
      t.user_id = uid ∧
      (purchase s eid uid).2.tickets = s.tickets ++ [t] ∧
      findEvent (purchase s eid uid).2 eid =
        some { e with available_tickets := e.available_tickets - 1 } ∧
      (∀ e' ∈ s.events, e'.id ≠ eid →
        e' ∈ (purchase s eid uid).2.events) ∧
      (purchase s eid uid).2.pending = s.pending) ∧
  (e.available_tickets = 0 →
    purchase s eid uid = (Except.error OpError.outOfInventory, s))

/-- C2: test-and-decrement purchase — on an existing event with available
inventory it decrements by exactly one and creates exactly one purchased
ticket for that event and user (all other events and the pending table
untouched); with zero inventory it fails with `OutOfInventory` and the
state is unchanged. -/
theorem C2_purchase_effect (s : SysState) (eid uid : Nat) (e : Event)
    (hInv : Inv s) (he : findEvent s eid = some e) :
    PurchaseSpec s eid uid e := by
  have hfind' : s.events.find? (fun x => x.id == eid) = some e := he
  obtain ⟨he_mem, he_id⟩ := find_key Event.id eid s.events e hfind'
  obtain ⟨h1, h2, h3, h4, h5, h6, h7, h8, h9, h10⟩ := hInv
  constructor
  · intro hav
    have hps := purchase_ok s eid uid e he hav
    refine ⟨_, by rw [hps], rfl, rfl, rfl, by rw [hps], ?_, ?_, by rw [hps]⟩
    · rw [hps]
      subst he_id
      obtain ⟨l₁, l₂, hsplit, hl₁, hl₂⟩ := exists_split Event.id he_mem h2
      unfold findEvent
      dsimp only
      rw [hsplit, updateById_split Event.id _ hl₁ hl₂]
      apply find?_split
      · intro y hy
        exact beq_eq_false_iff_ne.mpr (hl₁ y hy)
      · simp
    · intro e' he' hne
      rw [hps]
      exact mem_updateById_of_ne eid _ he' hne
  · intro h0
    unfold purchase
    rw [he]
    dsimp only
    rw [if_neg (by omega)]

/-- A one-event state used to instantiate the operation theorems. -/
def wState : SysState :=
  { events := [Event.mk 1 sampleDescr 2 2 1], tickets := [], pending := [],
    eventSeq := 2, pendingSeq := 1, ticketSeq := 1, clock := 1 }

theorem C2_purchase_effect_witness :
    PurchaseSpec wState 1 2 (Event.mk 1 sampleDescr 2 2 1) :=
  C2_purchase_effect wState 1 2 (Event.mk 1 sampleDescr 2 2 1) (by decide)
    (by decide)

/-- C3: ticket codes are globally unique — in any reachable state (tickets
are never deleted, so `s.tickets` is the set of tickets ever created),
distinct tickets carry distinct `ticket_code`s. -/
theorem C3_ticket_codes_unique (s : SysState) (hr : Reachable s) :
    ∀ t₁ ∈ s.tickets, ∀ t₂ ∈ s.tickets, t₁ ≠ t₂ →
      t₁.ticket_code ≠ t₂.ticket_code := by
  obtain ⟨-, -, -, h4, h5, -, -, -, -, -⟩ := reachable_Inv hr
  intro t₁ h₁ t₂ h₂ hne hcode
  rw [h5 t₁ h₁, h5 t₂ h₂] at hcode
  have hid := (mkTicketCode_inj hcode).2
  exact hne (List.inj_on_of_nodup_map h4 h₁ h₂ hid)

theorem C3_ticket_codes_unique_witness :
    (Ticket.mk 1 1 2 (mkTicketCode 1 1) TicketStatus.purchased 1).ticket_code
      ≠
    (Ticket.mk 2 1 3 (mkTicketCode 1 2) TicketStatus.purchased 2).ticket_code
    :=
  C3_ticket_codes_unique
    (applyOp (applyOp (applyOp initState (Op.createEvent 1 sampleDescr 2))
      (Op.purchase 1 2)) (Op.purchase 1 3))
    (Reachable.step _ _ (Reachable.step _ _
      (Reachable.step _ _ Reachable.init)))
    _ (by decide) _ (by decide) (by decide)

/-- The behaviour claimed for `cancel`: `NotFound` on a missing ticket and
`InvalidStateTransition` on a non-`purchased` one, both leaving the state
unchanged; on a `purchased` ticket it marks the ticket `cancelled` and
increments the owning event's `available_tickets` by exactly 1, touching
nothing else. -/
def CancelSpec (s : SysState) (tid aid : Nat) : Prop :=
  (findTicket s tid = none →
    cancel s tid aid = (Except.error OpError.notFound, s)) ∧
  (∀ t, findTicket s tid = some t →
    t.status ≠ TicketStatus.purchased →
    cancel s tid aid = (Except.error OpError.invalidStateTransition, s)) ∧
  (∀ t, findTicket s tid = some t →
    t.status = TicketStatus.purchased →
    (cancel s tid aid).1 = Except.ok () ∧
    findTicket (cancel s tid aid).2 tid =
      some { t with status := TicketStatus.cancelled } ∧
    (∀ t' ∈ s.tickets, t'.id ≠ tid → t' ∈ (cancel s tid aid).2.tickets) ∧
    (∃ e, findEvent s t.event_id = some e ∧
      findEvent (cancel s tid aid).2 t.event_id =
        some { e with available_tickets := e.available_tickets + 1 }) ∧
    (∀ e' ∈ s.events, e'.id ≠ t.event_id →
      e' ∈ (cancel s tid aid).2.events) ∧
    (cancel s tid aid).2.pending = s.pending)

/-- C4: cancellation — `NotFound` on a missing ticket id,
`InvalidStateTransition` on a `used` or already-`cancelled` ticket (state
unchanged in both failure cases), and on a `purchased` ticket the single
step that sets the status to `cancelled` and returns one unit to the owning
event. -/
theorem C4_cancel_effect (s : SysState) (tid aid : Nat) (hInv : Inv s) :
    CancelSpec s tid aid := by
  obtain ⟨h1, h2, h3, h4, h5, h6, h7, h8, h9, h10⟩ := hInv
  refine ⟨?_, ?_, ?_⟩
  · intro hnone
    unfold cancel
    rw [hnone]
  · intro t hsome hst
    unfold cancel
    rw [hsome]
    dsimp only
    rw [if_neg hst]
  · intro t hsome hst
    have hfind' : s.tickets.find? (fun x => x.id == tid) = some t := hsome
    obtain ⟨ht_mem, ht_id⟩ := find_key Ticket.id tid s.tickets t hfind'
    have hcs : cancel s tid aid =
        (Except.ok (),
         { s with
           tickets := updateById Ticket.id tid
             (fun t' => { t' with status := TicketStatus.cancelled })
             s.tickets,
           events := updateById Event.id t.event_id
             (fun e => { e with
               available_tickets := e.available_tickets + 1 }) s.events,
           clock := s.clock + 1 }) := by
      unfold cancel
      rw [hsome]
      dsimp only
      rw [if_pos hst]
    subst ht_id
    obtain ⟨t₁, t₂, htsplit, ht₁, ht₂⟩ := exists_split Ticket.id ht_mem h4
    obtain ⟨e₀, he₀_mem, he₀_id⟩ := h6 t ht_mem
    obtain ⟨l₁, l₂, hesplit, hl₁, hl₂⟩ := exists_split Event.id he₀_mem h2
    refine ⟨by rw [hcs], ?_, ?_, ?_, ?_, by rw [hcs]⟩
    · rw [hcs]
      unfold findTicket
      dsimp only
      rw [htsplit, updateById_split Ticket.id _ ht₁ ht₂]
      apply find?_split
      · intro y hy
        exact beq_eq_false_iff_ne.mpr (ht₁ y hy)
      · simp
    · intro t' ht' hne
      rw [hcs]
      exact mem_updateById_of_ne t.id _ ht' hne
    · refine ⟨e₀, ?_, ?_⟩
      · unfold findEvent
        rw [hesplit]
        apply find?_split
        · intro y hy
          exact beq_eq_false_iff_ne.mpr
            (fun hc => hl₁ y hy (by rw [hc, he₀_id]))
        · simp [he₀_id]
      · rw [hcs]
        unfold findEvent
        dsimp only
        rw [hesplit, ← he₀_id, updateById_split Event.id _ hl₁ hl₂]
        apply find?_split
        · intro y hy
          exact beq_eq_false_iff_ne.mpr
            (fun hc => hl₁ y hy (by rw [hc]))
        · simp [he₀_id]
    · intro e' he' hne
      rw [hcs]
      exact mem_updateById_of_ne t.event_id _ he' hne

/-- A state holding one event with one outstanding purchased ticket. -/
def wState2 : SysState :=
  { events := [Event.mk 1 sampleDescr 2 1 1],
    tickets := [Ticket.mk 1 1 2 (mkTicketCode 1 1) TicketStatus.purchased 1],
    pending := [], eventSeq := 2, pendingSeq := 1, ticketSeq := 2,
    clock := 2 }

theorem C4_cancel_effect_witness : CancelSpec wState2 1 2 :=
  C4_cancel_effect wState2 1 2 (by decide)

/-- The behaviour claimed for `redeem` on a `purchased` ticket: sets the
status to `used`, changes nothing else (in particular the events table is
untouched, so every event's `available_tickets` and `total_tickets` keep
their exact values), and a later `cancel` of that ticket fails with
`InvalidStateTransition`. -/
def RedeemSpec (s : SysState) (tid : Nat) : Prop :=
  ∀ t, findTicket s tid = some t →
    t.status = TicketStatus.purchased →
    (redeem s tid).1 = Except.ok () ∧
    (redeem s tid).2.events = s.events ∧
    findTicket (redeem s tid).2 tid =
      some { t with status := TicketStatus.used } ∧
    (∀ t' ∈ s.tickets, t'.id ≠ tid → t' ∈ (redeem s tid).2.tickets) ∧
    (redeem s tid).2.pending = s.pending ∧
    (∀ aid, cancel (redeem s tid).2 tid aid =
      (Except.error OpError.invalidStateTransition, (redeem s tid).2))

/-- C7: redemption of a purchased ticket marks it `used` and has no other
effect — the events table (hence `available_tickets` and `total_tickets`
of the owning event) is exactly the same before and after — and a later
cancellation of that ticket fails with `InvalidStateTransition`. -/
theorem C7_redeem_effect (s : SysState) (tid : Nat) (hInv : Inv s) :
    RedeemSpec s tid := by
  obtain ⟨h1, h2, h3, h4, h5, h6, h7, h8, h9, h10⟩ := hInv
  intro t hsome hst
  have hfind' : s.tickets.find? (fun x => x.id == tid) = some t := hsome
  obtain ⟨ht_mem, ht_id⟩ := find_key Ticket.id tid s.tickets t hfind'
  have hrs : redeem s tid =
      (Except.ok (),
       { s with
         tickets := updateById Ticket.id tid
           (fun t' => { t' with status := TicketStatus.used }) s.tickets,
         clock := s.clock + 1 }) := by
    unfold redeem
    rw [hsome]
    dsimp only
    rw [if_pos hst]
  subst ht_id
  obtain ⟨t₁, t₂, htsplit, ht₁, ht₂⟩ := exists_split Ticket.id ht_mem h4
  have hfind_used : findTicket (redeem s t.id).2 t.id =
      some { t with status := TicketStatus.used } := by
    rw [hrs]
    unfold findTicket
    dsimp only
    rw [htsplit, updateById_split Ticket.id _ ht₁ ht₂]
    apply find?_split
    · intro y hy
      exact beq_eq_false_iff_ne.mpr (ht₁ y hy)
    · simp
  refine ⟨by rw [hrs], by rw [hrs], hfind_used, ?_, by rw [hrs], ?_⟩
  · intro t' ht' hne
    rw [hrs]
    exact mem_updateById_of_ne t.id _ ht' hne
  · intro aid
    unfold cancel
    rw [show findTicket (redeem s t.id).2 t.id =
      some { t with status := TicketStatus.used } from hfind_used]
    dsimp only
    rw [if_neg (by intro hc; cases hc)]

theorem C7_redeem_effect_witness : RedeemSpec wState2 1 :=
  C7_redeem_effect wState2 1 (by decide)

/-- C6: a PendingEvent in a terminal state (`approved` or `rejected`) is
never changed again — `review` on it fails with `InvalidStateTransition`
leaving the state unchanged, and no operation of the core alters the
record (so the only transitions ever performed are `pending → approved`
and `pending → rejected`, both by `review`). -/
theorem C6_pending_terminal :
    (∀ s pid dec r notes p, findPending s pid = some p →
      p.status ≠ PendingStatus.pending →
      review s pid dec r notes =
        (Except.error OpError.invalidStateTransition, s)) ∧
    (∀ s op p, Inv s → p ∈ s.pending → p.status ≠ PendingStatus.pending →
      p ∈ (applyOp s op).pending) := by
  constructor
  · intro s pid dec r notes p hp hst
    unfold review
    rw [hp]
    dsimp only
    rw [if_neg hst]
  · intro s op p hInv hp hst
    obtain ⟨h1, h2, h3, h4, h5, h6, h7, h8, h9, h10⟩ := hInv
    cases op with
    | submit r d total =>
      show p ∈ (submit s r d total).2.pending
      unfold submit
      by_cases hv : validDescr d total = true
      · rw [if_pos hv]
        exact List.mem_append_left _ hp
      · rw [if_neg hv]
        exact hp
    | review pid dec r notes =>
      show p ∈ (review s pid dec r notes).2.pending
      unfold review
      cases hfind : findPending s pid with
      | none => exact hp
      | some q =>
        have hfind' : s.pending.find? (fun x => x.id == pid) = some q :=
          hfind
        obtain ⟨hq_mem, hq_id⟩ :=
          find_key PendingEvent.id pid s.pending q hfind'
        dsimp only
        by_cases hqs : q.status = PendingStatus.pending
        · rw [if_pos hqs]
          have hne : p.id ≠ pid := by
            intro hc
            have hpq : p = q :=
              List.inj_on_of_nodup_map h8 hp hq_mem (by rw [hc, hq_id])
            rw [hpq] at hst
            exact hst hqs
          cases dec with
          | approve => exact mem_updateById_of_ne pid _ hp hne
          | reject => exact mem_updateById_of_ne pid _ hp hne
        · rw [if_neg hqs]
          exact hp
    | createEvent o d total =>
      show p ∈ (createEvent s o d total).2.pending
      unfold createEvent
      by_cases hv : (0 : Int) ≤ total
      · rw [if_pos hv]
        exact hp
      · rw [if_neg hv]
        exact hp
    | purchase eid uid =>
      show p ∈ (purchase s eid uid).2.pending
      unfold purchase
      cases hfind : findEvent s eid with
      | none => exact hp
      | some e =>
        dsimp only
        by_cases hav : 0 < e.available_tickets
        · rw [if_pos hav]
          exact hp
        · rw [if_neg hav]
          exact hp
    | cancel tid aid =>
      show p ∈ (cancel s tid aid).2.pending
      unfold cancel
      cases hfind : findTicket s tid with
      | none => exact hp
      | some t =>
        dsimp only
        by_cases hts : t.status = TicketStatus.purchased
        · rw [if_pos hts]
          exact hp
        · rw [if_neg hts]
          exact hp
    | redeem tid =>
      show p ∈ (redeem s tid).2.pending
      unfold redeem
      cases hfind : findTicket s tid with
      | none => exact hp
      | some t =>
        dsimp only
        by_cases hts : t.status = TicketStatus.purchased
        · rw [if_pos hts]
          exact hp
        · rw [if_neg hts]
          exact hp

/-- A state holding one already-approved pending event. -/
def wState3 : SysState :=
  { events := [], tickets := [],
    pending := [PendingEvent.mk 1 sampleDescr 50 2 PendingStatus.approved
      "ok"],
    eventSeq := 1, pendingSeq := 2, ticketSeq := 1, clock := 1 }

theorem C6_pending_terminal_witness :
    review wState3 1 Decision.approve 3 "again" =
      (Except.error OpError.invalidStateTransition, wState3) ∧
    PendingEvent.mk 1 sampleDescr 50 2 PendingStatus.approved "ok" ∈
      (applyOp wState3 (Op.review 1 Decision.approve 3 "again")).pending :=
  ⟨C6_pending_terminal.1 wState3 1 Decision.approve 3 "again"
      (PendingEvent.mk 1 sampleDescr 50 2 PendingStatus.approved "ok")
      (by decide) (by decide),
   C6_pending_terminal.2 wState3 (Op.review 1 Decision.approve 3 "again")
      (PendingEvent.mk 1 sampleDescr 50 2 PendingStatus.approved "ok")
      (by decide) (by decide) (by decide)⟩

theorem length_filter_split {α : Type} (p : α → Bool) (l₁ l₂ : List α)
    (x : α) :
    ((l₁ ++ x :: l₂).filter p).length =
      (l₁.filter p).length + (if p x then 1 else 0) +
        (l₂.filter p).length := by
  rw [List.filter_append, List.length_append, List.filter_cons]
  split <;> simp <;> omega

theorem length_filter_updateById {α : Type} (k : α → Nat) (i : Nat)
    (f : α → α) (p : α → Bool) (l : List α) (hp : ∀ y, p (f y) = p y) :
    ((updateById k i f l).filter p).length = (l.filter p).length := by
  unfold updateById
  rw [List.filter_map, List.length_map]
  congr 1
  apply List.filter_congr
  intro y _
  by_cases h : k y = i <;> simp [h, hp]

/-- Number of `approved` pending events requesting descriptor `d` with
ticket count `n`. -/
def countApproved (s : SysState) (d : Descr) (n : Int) : Nat :=
  (s.pending.filter (fun p => p.status == PendingStatus.approved &&
    p.descr == d && p.total_tickets == n)).length

/-- Number of events carrying descriptor `d` with `total_tickets = n`. -/
def countOffering (s : SysState) (d : Descr) (n : Int) : Nat :=
  (s.events.filter (fun e => e.descr == d && e.total_tickets == n)).length

/-- Correspondence between approved requests and events: every approved
PendingEvent is matched by its own Event with the same descriptive fields
and total ticket count. -/
def Corr (s : SysState) : Prop :=
  ∀ d n, countApproved s d n ≤ countOffering s d n

theorem Corr_initState : Corr initState := by
  intro d n
  simp [countApproved, countOffering, initState]

theorem Corr_applyOp (s : SysState) (op : Op) (hInv : Inv s) (hc : Corr s) :
    Corr (applyOp s op) := by
  obtain ⟨h1, h2, h3, h4, h5, h6, h7, h8, h9, h10⟩ := hInv
  intro d n
  cases op with
  | submit r d' total =>
    show countApproved (submit s r d' total).2 d n ≤
      countOffering (submit s r d' total).2 d n
    unfold submit
    by_cases hv : validDescr d' total = true
    · rw [if_pos hv]
      unfold countApproved countOffering
      dsimp only
      rw [List.filter_append, List.length_append]
      have hone : (List.filter
          (fun p : PendingEvent => p.status == PendingStatus.approved &&
            p.descr == d && p.total_tickets == n)
          [{ id := s.pendingSeq, descr := d', total_tickets := total,
             requester_id := r, status := PendingStatus.pending,
             admin_notes := "" }]).length = 0 := by
        simp [List.filter,
          show (PendingStatus.pending == PendingStatus.approved) = false
            from rfl]
      rw [hone]
      have := hc d n
      unfold countApproved countOffering at this
      omega
    · rw [if_neg hv]
      exact hc d n
  | createEvent o d' total =>
    show countApproved (createEvent s o d' total).2 d n ≤
      countOffering (createEvent s o d' total).2 d n
    unfold createEvent
    by_cases hv : (0 : Int) ≤ total
    · rw [if_pos hv]
      unfold countApproved countOffering
      dsimp only
      rw [List.filter_append, List.length_append]
      have := hc d n
      unfold countApproved countOffering at this
      omega
    · rw [if_neg hv]
      exact hc d n
  | purchase eid uid =>
    show countApproved (purchase s eid uid).2 d n ≤
      countOffering (purchase s eid uid).2 d n
    unfold purchase
    cases hfind : findEvent s eid with
    | none => exact hc d n
    | some e =>
      dsimp only
      by_cases hav : 0 < e.available_tickets
      · rw [if_pos hav]
        unfold countApproved countOffering
        dsimp only
        rw [length_filter_updateById Event.id eid
          (fun e' => { e' with
            available_tickets := e'.available_tickets - 1 })
          (fun e => e.descr == d && e.total_tickets == n) s.events
          (fun y => rfl)]
        exact hc d n
      · rw [if_neg hav]
        exact hc d n
  | cancel tid aid =>
    show countApproved (cancel s tid aid).2 d n ≤
      countOffering (cancel s tid aid).2 d n
    unfold cancel
    cases hfind : findTicket s tid with
    | none => exact hc d n
    | some t =>
      dsimp only
      by_cases hts : t.status = TicketStatus.purchased
      · rw [if_pos hts]
        unfold countApproved countOffering
        dsimp only
        rw [length_filter_updateById Event.id t.event_id
          (fun e => { e with
            available_tickets := e.available_tickets + 1 })
          (fun e => e.descr == d && e.total_tickets == n) s.events
          (fun y => rfl)]
        exact hc d n
      · rw [if_neg hts]
        exact hc d n
  | redeem tid =>
    show countApproved (redeem s tid).2 d n ≤
      countOffering (redeem s tid).2 d n
    unfold redeem
    cases hfind : findTicket s tid with
    | none => exact hc d n
    | some t =>
      dsimp only
      by_cases hts : t.status = TicketStatus.purchased
      · rw [if_pos hts]
        exact hc d n
      · rw [if_neg hts]
        exact hc d n
  | review pid dec r notes =>
    show countApproved (review s pid dec r notes).2 d n ≤
      countOffering (review s pid dec r notes).2 d n
    unfold review
    cases hfind : findPending s pid with
    | none => exact hc d n
    | some q =>
      have hfind' : s.pending.find? (fun x => x.id == pid) = some q := hfind
      obtain ⟨hq_mem, hq_id⟩ := find_key PendingEvent.id pid s.pending q
        hfind'
      dsimp only
      by_cases hqs : q.status = PendingStatus.pending
      · rw [if_pos hqs]
        subst hq_id
        obtain ⟨l₁, l₂, hsplit, hl₁, hl₂⟩ :=
          exists_split PendingEvent.id hq_mem h8
        have hold := hc d n
        unfold countApproved countOffering at hold
        rw [hsplit, length_filter_split] at hold
        have hq0 : (if (q.status == PendingStatus.approved &&
            q.descr == d && q.total_tickets == n) = true then 1 else 0) = 0
            := by
          simp [hqs]
        cases dec with
        | approve =>
          dsimp only
          unfold countApproved countOffering
          dsimp only
          rw [hsplit, updateById_split PendingEvent.id _ hl₁ hl₂,
            length_filter_split, List.filter_append, List.length_append]
          have hδ : (if (({ q with
                status := PendingStatus.approved,
                admin_notes := notes } : PendingEvent).status ==
                  PendingStatus.approved &&
              ({ q with
                status := PendingStatus.approved,
                admin_notes := notes } : PendingEvent).descr == d &&
              ({ q with
                status := PendingStatus.approved,
                admin_notes := notes } : PendingEvent).total_tickets == n)
              = true then 1 else 0) =
              (List.filter
                (fun e : Event => e.descr == d && e.total_tickets == n)
                [{ id := s.eventSeq, descr := q.descr,
                   total_tickets := q.total_tickets,
                   available_tickets := q.total_tickets,
                   organizer_id := r }]).length := by
            dsimp only
            cases hb1 : (q.descr == d) <;>
              cases hb2 : (q.total_tickets == n) <;>
                simp [List.filter, hb1, hb2,
                  show (PendingStatus.approved == PendingStatus.approved) =
                    true from rfl]
          omega
        | reject =>
          dsimp only
          unfold countApproved countOffering
          dsimp only
          rw [hsplit, updateById_split PendingEvent.id _ hl₁ hl₂,
            length_filter_split]
          have hq0' : (if (({ q with
                status := PendingStatus.rejected,
                admin_notes := notes } : PendingEvent).status ==
                  PendingStatus.approved &&
              ({ q with
                status := PendingStatus.rejected,
                admin_notes := notes } : PendingEvent).descr == d &&
              ({ q with
                status := PendingStatus.rejected,
                admin_notes := notes } : PendingEvent).total_tickets == n)
              = true then 1 else 0) = 0 := by
            simp [show (PendingStatus.rejected == PendingStatus.approved) =
              false from rfl]
          omega
      · rw [if_neg hqs]
        exact hc d n

/-- The claimed effect of approving a pending request: atomically (in one
step of the function) the status becomes `approved` (notes stored), exactly
one new Event is appended copying the descriptive fields with
`total_tickets = available_tickets = PendingEvent.total_tickets` and
`organizer_id = reviewer_id`, every other pending row is untouched, and
tickets are untouched. -/
def ApproveSpec (s : SysState) (pid r : Nat) (notes : String)
    (p : PendingEvent) : Prop :=
  (review s pid Decision.approve r notes).1 = Except.ok () ∧
  (review s pid Decision.approve r notes).2.events =
    s.events ++
      [{ id := s.eventSeq, descr := p.descr,
         total_tickets := p.total_tickets,
         available_tickets := p.total_tickets, organizer_id := r }] ∧
  findPending (review s pid Decision.approve r notes).2 pid =
    some { p with status := PendingStatus.approved,
                  admin_notes := notes } ∧
  (∀ q ∈ s.pending, q.id ≠ pid →
    q ∈ (review s pid Decision.approve r notes).2.pending) ∧
  (review s pid Decision.approve r notes).2.tickets = s.tickets

/-- C5: approving a `pending` request sets its status to `approved` and, in
the same step, creates exactly one Event copying the descriptive fields
with `total_tickets = available_tickets` equal to the requested count and
`organizer_id` the reviewer; and in every reachable state every approved
PendingEvent is matched injectively by an Event with the same descriptive
fields and total ticket count. -/
theorem C5_approval :
    (∀ s pid r notes p, Inv s → findPending s pid = some p →
      p.status = PendingStatus.pending → ApproveSpec s pid r notes p) ∧
    (∀ s, Reachable s → Corr s) := by
  constructor
  · intro s pid r notes p hInv hp hst
    obtain ⟨h1, h2, h3, h4, h5, h6, h7, h8, h9, h10⟩ := hInv
    have hfind' : s.pending.find? (fun x => x.id == pid) = some p := hp
    obtain ⟨hp_mem, hp_id⟩ := find_key PendingEvent.id pid s.pending p
      hfind'
    have hrs : review s pid Decision.approve r notes =
        (Except.ok (),
         { s with
           pending := updateById PendingEvent.id pid
             (fun p' =>
               { p' with
                 status := PendingStatus.approved,
                 admin_notes := notes }) s.pending,
           events := s.events ++
             [{ id := s.eventSeq, descr := p.descr,
                total_tickets := p.total_tickets,
                available_tickets := p.total_tickets,
                organizer_id := r }],
           eventSeq := s.eventSeq + 1, clock := s.clock + 1 }) := by
      unfold review
      rw [hp]
      dsimp only
      rw [if_pos hst]
    refine ⟨by rw [hrs], by rw [hrs], ?_, ?_, by rw [hrs]⟩
    · rw [hrs]
      subst hp_id
      obtain ⟨l₁, l₂, hsplit, hl₁, hl₂⟩ :=
        exists_split PendingEvent.id hp_mem h8
      unfold findPending
      dsimp only
      rw [hsplit, updateById_split PendingEvent.id _ hl₁ hl₂]
      apply find?_split
      · intro y hy
        exact beq_eq_false_iff_ne.mpr (hl₁ y hy)
      · simp
    · intro q hq hne
      rw [hrs]
      exact mem_updateById_of_ne pid _ hq hne
  · intro s hr
    induction hr with
    | init => exact Corr_initState
    | step s' op hr' ih => exact Corr_applyOp s' op (reachable_Inv hr') ih

theorem C5_approval_witness :
    ApproveSpec (applyOp initState (Op.submit 2 sampleDescr 50)) 1 3
      "approved"
      (PendingEvent.mk 1 sampleDescr 50 2 PendingStatus.pending "") ∧
    Corr (applyOp initState (Op.submit 2 sampleDescr 50)) :=
  ⟨C5_approval.1 (applyOp initState (Op.submit 2 sampleDescr 50)) 1 3
      "approved" (PendingEvent.mk 1 sampleDescr 50 2 PendingStatus.pending
        "") (by decide) (by decide) (by decide),
   C5_approval.2 (applyOp initState (Op.submit 2 sampleDescr 50))
      (Reachable.step initState (Op.submit 2 sampleDescr 50)
        Reachable.init)⟩

/-- One purchase call per user, serialized (the spec's §5 per-event
serialization makes any concurrent execution of purchases against one
event equivalent to some such sequence). -/
def purchaseMany (s : SysState) (eid : Nat) (users : List Nat) :
    List (Except OpError Ticket) × SysState :=
  match users with
  | [] => ([], s)
  | u :: rest =>
    let r := purchase s eid u
    let rs := purchaseMany r.2 eid rest
    (r.1 :: rs.1, rs.2)

theorem findEvent_purchase_dec (s : SysState) (eid uid : Nat) (e : Event)
    (hInv : Inv s) (he : findEvent s eid = some e)
    (hav : 0 < e.available_tickets) :
    findEvent (purchase s eid uid).2 eid =
      some { e with available_tickets := e.available_tickets - 1 } := by
  obtain ⟨h1, h2, h3, h4, h5, h6, h7, h8, h9, h10⟩ := hInv
  have hfind' : s.events.find? (fun x => x.id == eid) = some e := he
  obtain ⟨he_mem, he_id⟩ := find_key Event.id eid s.events e hfind'
  have hps := purchase_ok s eid uid e he hav
  rw [hps]
  subst he_id
  obtain ⟨l₁, l₂, hsplit, hl₁, hl₂⟩ := exists_split Event.id he_mem h2
  unfold findEvent
  dsimp only
  rw [hsplit, updateById_split Event.id _ hl₁ hl₂]
  apply find?_split
  · intro y hy
    exact beq_eq_false_iff_ne.mpr (hl₁ y hy)
  · simp

theorem purchaseMany_ok (users : List Nat) :
    ∀ (s : SysState) (eid : Nat) (e : Event), Inv s →
      findEvent s eid = some e →
      (users.length : Int) ≤ e.available_tickets →
      (∀ r ∈ (purchaseMany s eid users).1, ∃ t, r = Except.ok t) ∧
      (purchaseMany s eid users).1.length = users.length ∧
      (purchaseMany s eid users).2.tickets.length =
        s.tickets.length + users.length ∧
      Inv (purchaseMany s eid users).2 ∧
      findEvent (purchaseMany s eid users).2 eid =
        some { e with available_tickets :=
          e.available_tickets - users.length } := by
  induction users with
  | nil =>
    intro s eid e hInv he _
    refine ⟨?_, rfl, ?_, hInv, ?_⟩
    · intro r hr
      cases hr
    · simp [purchaseMany]
    · show findEvent s eid = _
      rw [he]
      congr 1
      have hz : e.available_tickets - ((List.length ([] : List Nat)) : Int)
          = e.available_tickets := by
        simp
      rw [hz]
  | cons u rest ih =>
    intro s eid e hInv he hlen
    have hav : 0 < e.available_tickets := by
      have hc : ((u :: rest).length : Int) = (rest.length : Int) + 1 := by
        push_cast [List.length_cons]
        ring
      have hnn : (0 : Int) ≤ (rest.length : Int) := Int.natCast_nonneg _
      omega
    have hps := purchase_ok s eid u e he hav
    have hInv' : Inv (purchase s eid u).2 := Inv_purchase s eid u hInv
    have he' := findEvent_purchase_dec s eid u e hInv he hav
    have hlen' : ((rest.length : Int)) ≤
        ({ e with available_tickets := e.available_tickets - 1 }
          : Event).available_tickets := by
      have hc : ((u :: rest).length : Int) = (rest.length : Int) + 1 := by
        push_cast [List.length_cons]
        ring
      dsimp only
      omega
    obtain ⟨ihok, ihres, ihlen, ihInv, ihfind⟩ :=
      ih (purchase s eid u).2 eid _ hInv' he' hlen'
    have hcons : purchaseMany s eid (u :: rest) =
        ((purchase s eid u).1 :: (purchaseMany (purchase s eid u).2 eid
          rest).1,
         (purchaseMany (purchase s eid u).2 eid rest).2) := rfl
    rw [hcons]
    refine ⟨?_, ?_, ?_, ihInv, ?_⟩
    · intro r hr
      rcases List.mem_cons.mp hr with hr | hr
      · subst hr
        exact ⟨_, by rw [hps]⟩
      · exact ihok r hr
    · dsimp only
      simp [List.length_cons, ihres]
    · dsimp only
      rw [ihlen, hps]
      dsimp only
      rw [List.length_append]
      simp [List.length_cons]
      omega
    · dsimp only
      rw [ihfind]
      congr 1
      have hval : ({ e with available_tickets := e.available_tickets - 1 }
          : Event).available_tickets - (rest.length : Int) =
          e.available_tickets - ((u :: rest).length : Int) := by
        dsimp only
        push_cast [List.length_cons]
        ring
      rw [hval]

/-- C9: issuing one purchase per user against an event whose
`available_tickets` equals `total_tickets = 100`, with the hundred calls
serialized per the spec's per-event serialization mandate, makes all 100
succeed, creates exactly 100 tickets whose codes are pairwise distinct,
and leaves `available_tickets = 0`. -/
theorem C9_hundred_purchases (s : SysState) (eid : Nat) (e : Event)
    (users : List Nat) (hInv : Inv s) (he : findEvent s eid = some e)
    (hlen : users.length = 100) (htot : e.total_tickets = 100)
    (hav : e.available_tickets = 100) :
    (∀ r ∈ (purchaseMany s eid users).1, ∃ t, r = Except.ok t) ∧
    (purchaseMany s eid users).1.length = 100 ∧
    (purchaseMany s eid users).2.tickets.length =
      s.tickets.length + 100 ∧
    (∀ t₁ ∈ (purchaseMany s eid users).2.tickets,
      ∀ t₂ ∈ (purchaseMany s eid users).2.tickets, t₁ ≠ t₂ →
        t₁.ticket_code ≠ t₂.ticket_code) ∧
    findEvent (purchaseMany s eid users).2 eid =
      some { e with available_tickets := 0 } := by
  have hbound : (users.length : Int) ≤ e.available_tickets := by
    rw [hlen, hav]
    norm_num
  obtain ⟨hok, hres, htk, hInvF, hfind⟩ :=
    purchaseMany_ok users s eid e hInv he hbound
  obtain ⟨-, -, -, h4, h5, -, -, -, -, -⟩ := hInvF
  refine ⟨hok, by rw [hres, hlen], by rw [htk, hlen], ?_, ?_⟩
  · intro t₁ h₁ t₂ h₂ hne hcode
    rw [h5 t₁ h₁, h5 t₂ h₂] at hcode
    exact hne (List.inj_on_of_nodup_map h4 h₁ h₂ (mkTicketCode_inj hcode).2)
  · rw [hfind]
    congr 1
    have hval : e.available_tickets - (users.length : Int) = 0 := by
      rw [hlen, hav]
      norm_num
    rw [hval]

/-- A fresh event with 100 of 100 tickets available. -/
def wState100 : SysState :=
  { events := [Event.mk 1 sampleDescr 100 100 1], tickets := [],
    pending := [], eventSeq := 2, pendingSeq := 1, ticketSeq := 1,
    clock := 1 }

theorem C9_hundred_purchases_witness :
    (∀ r ∈ (purchaseMany wState100 1 (List.range 100)).1,
      ∃ t, r = Except.ok t) ∧
    (purchaseMany wState100 1 (List.range 100)).1.length = 100 ∧
    (purchaseMany wState100 1 (List.range 100)).2.tickets.length =
      wState100.tickets.length + 100 ∧
    (∀ t₁ ∈ (purchaseMany wState100 1 (List.range 100)).2.tickets,
      ∀ t₂ ∈ (purchaseMany wState100 1 (List.range 100)).2.tickets,
        t₁ ≠ t₂ → t₁.ticket_code ≠ t₂.ticket_code) ∧
    findEvent (purchaseMany wState100 1 (List.range 100)).2 1 =
      some { Event.mk 1 sampleDescr 100 100 1 with
             available_tickets := 0 } :=
  C9_hundred_purchases wState100 1 (Event.mk 1 sampleDescr 100 100 1)
    (List.range 100) (by decide) (by decide) (by simp) rfl rfl

/-! ### The admin event form (`AdminEventForm.tsx`) -/

/-- The values of the admin event form, one per field of the zod
`eventSchema` (`price` and `total_tickets` after `z.coerce.number()`;
`price` in cents). -/
structure EventFormValues where
  title : String
  description : String
  image_url : String
  date : String
  time_start : String
  time_end : String
  location : String
  category : String
  price : Int
  total_tickets : Int
deriving DecidableEq, Repr

/-- Shallow embedding of the zod `eventSchema` of `AdminEventForm.tsx`:
`title` at least 5 characters, `description` at least 20, `image_url` a
valid URL or empty (URL validity abstracted as the parameter `urlOk`),
`date`/`time_start`/`time_end`/`category` non-empty, `location` at least 5
characters, `price ≥ 0`, `total_tickets` a positive integer.  The schema
contains no comparison between `time_start` and `time_end` and no
requirement on the value of `date`. -/
def eventSchemaCheck (urlOk : String → Bool) (v : EventFormValues) : Bool :=
  decide (5 ≤ v.title.length) && decide (20 ≤ v.description.length) &&
  (v.image_url == "" || urlOk v.image_url) &&
  decide (1 ≤ v.date.length) && decide (1 ≤ v.time_start.length) &&
  decide (1 ≤ v.time_end.length) && decide (5 ≤ v.location.length) &&
  decide (1 ≤ v.category.length) && decide (0 ≤ v.price) &&
  decide (0 < v.total_tickets)

/-- An otherwise well-formed submission whose end time (08:00) is before
its start time (20:00). -/
def badTimesForm : EventFormValues :=
  { title := "Annual Music Night",
    description := "An evening of performances by student bands",
    image_url := "", date := "2024-07-15", time_start := "20:00",
    time_end := "08:00", location := "College Amphitheater",
    category := "cultural", price := 1000, total_tickets := 50 }

/-- C8 counterexample: the form validation accepts a submission whose end
time is not strictly after its start time (here end 08:00 ≤ start 20:00),
so "fails with ValidationError whenever ... end time not strictly after
start time" is false of the code — `eventSchema` has no such check. -/
theorem C8_no_time_order_check :
    parseHM badTimesForm.time_end ≤ parseHM badTimesForm.time_start ∧
    eventSchemaCheck (fun _ => false) badTimesForm = true := by
  decide

/-- C8 (amended): validation rejects an empty title or location (indeed any
shorter than 5 characters), a negative price, and a non-positive ticket
count; it imposes no end-after-start check (see the counterexample) and no
requirement on the date value beyond non-emptiness — in particular none
that the date be in the future. -/
theorem C8_validation (urlOk : String → Bool) (v : EventFormValues) :
    (v.title = "" → eventSchemaCheck urlOk v = false) ∧
    (v.location = "" → eventSchemaCheck urlOk v = false) ∧
    (v.price < 0 → eventSchemaCheck urlOk v = false) ∧
    (v.total_tickets ≤ 0 → eventSchemaCheck urlOk v = false) ∧
    (∀ d₁ d₂ : String, 1 ≤ d₁.length → 1 ≤ d₂.length →
      eventSchemaCheck urlOk { v with date := d₁ } =
        eventSchemaCheck urlOk { v with date := d₂ }) := by
  refine ⟨?_, ?_, ?_, ?_, ?_⟩
  · intro h
    have hf : decide (5 ≤ v.title.length) = false := by
      rw [h]
      decide
    simp [eventSchemaCheck, hf]
  · intro h
    have hf : decide (5 ≤ v.location.length) = false := by
      rw [h]
      decide
    simp [eventSchemaCheck, hf]
  · intro h
    have hf : decide (0 ≤ v.price) = false := by
      simp
      omega
    simp [eventSchemaCheck, hf]
  · intro h
    have hf : decide (0 < v.total_tickets) = false := by
      simp
      omega
    simp [eventSchemaCheck, hf]
  · intro d₁ d₂ h₁ h₂
    have e₁ : decide (1 ≤ d₁.length) = true := decide_eq_true h₁
    have e₂ : decide (1 ≤ d₂.length) = true := decide_eq_true h₂
    simp only [eventSchemaCheck]
    dsimp only
    rw [e₁, e₂]

theorem C8_validation_witness :
    eventSchemaCheck (fun _ => true)
      { title := "", description := "A celebration of campus culture",
        image_url := "", date := "2024-01-01", time_start := "09:00",
        time_end := "17:00", location := "Main Lawn Area",
        category := "academic", price := 0, total_tickets := 10 } = false
    :=
  (C8_validation (fun _ => true)
    { title := "", description := "A celebration of campus culture",
      image_url := "", date := "2024-01-01", time_start := "09:00",
      time_end := "17:00", location := "Main Lawn Area",
      category := "academic", price := 0, total_tickets := 10 }).1 rfl

/-! ### The admin form's update payload (`onSubmit`, edit mode) -/

/-- A JSON-ish field value of the update payload. -/
inductive FieldVal
  | str (s : String)
  | num (n : Int)
deriving DecidableEq, Repr

/-- The field names of the zod `eventSchema`. -/
def eventFormFields : List String :=
  ["title", "description", "image_url", "date", "time_start", "time_end",
   "location", "category", "price", "total_tickets"]

/-- The payload `onSubmit` passes to `eventsService.updateEvent(id, data)`
in edit mode: exactly the validated form values, keyed by schema field
name — nothing else is added to `data`. -/
def updateEventPayload (v : EventFormValues) : List (String × FieldVal) :=
  [("title", .str v.title), ("description", .str v.description),
   ("image_url", .str v.image_url), ("date", .str v.date),
   ("time_start", .str v.time_start), ("time_end", .str v.time_end),
   ("location", .str v.location), ("category", .str v.category),
   ("price", .num v.price), ("total_tickets", .num v.total_tickets)]

/-- Modelled from the spec: the catalog's `updateEvent` (§4.4, §6) applies
each submitted field to the stored Event row, last-writer-wins; the server
handler is not in the repository.  It can write every column, including
`available_tickets`, so the frame property below rests on the payload's
contents, not on the updater refusing inventory writes. -/
def applyField (e : Event) : String × FieldVal → Event
  | ("title", .str v) => { e with descr := { e.descr with title := v } }
  | ("description", .str v) =>
      { e with descr := { e.descr with description := v } }
  | ("image_url", .str v) =>
      { e with descr := { e.descr with image_url := v } }
  | ("date", .str v) => { e with descr := { e.descr with date := v } }
  | ("time_start", .str v) =>
      { e with descr := { e.descr with time_start := v } }
  | ("time_end", .str v) =>
      { e with descr := { e.descr with time_end := v } }
  | ("location", .str v) =>
      { e with descr := { e.descr with location := v } }
  | ("category", .str v) =>
      { e with descr := { e.descr with category := v } }
  | ("price", .num v) => { e with descr := { e.descr with price := v } }
  | ("total_tickets", .num v) => { e with total_tickets := v }
  | ("available_tickets", .num v) => { e with available_tickets := v }
  | _ => e

/-- Modelled from the spec: applying a whole update payload to an Event
row. -/
def applyUpdate (e : Event) (payload : List (String × FieldVal)) : Event :=
  payload.foldl applyField e

/-- C10: the payload submitted by the admin form's `onSubmit` in edit mode
carries exactly the zod schema's fields — `available_tickets` is never
among them — so applying the update leaves the stored
`available_tickets` unchanged. -/
theorem C10_update_frame (v : EventFormValues) (e : Event) :
    (updateEventPayload v).map Prod.fst = eventFormFields ∧
    "available_tickets" ∉ (updateEventPayload v).map Prod.fst ∧
    (applyUpdate e (updateEventPayload v)).available_tickets =
      e.available_tickets := by
  refine ⟨rfl, ?_, rfl⟩
  rw [show (updateEventPayload v).map Prod.fst = eventFormFields from rfl]
  decide

end MaheEvents
